import Mathlib

/-!
Shallow embedding of the gas accounting engine (`fvm/src/gas/mod.rs`) and of
two syscalls of the crypto syscall bridge (`fvm/src/syscalls/crypto.rs`) of
the ref-fvm repository, together with theorems settling the frozen claims
about them.

Machine integers: `Gas` wraps an `i64` milligas count.  We model `i64` values
as integers in the interval `[i64Min, i64Max]` and translate Rust's
`saturating_add` / `saturating_sub` / `saturating_mul` as clamping to that
interval.  Rust's `/` and `%` on `i64` truncate toward zero, which is
`Int.tdiv` / `Int.tmod` in Lean.
-/

/-- Smallest `i64` value, `-2^63`. -/
def i64Min : ℤ := -(2 ^ 63)

/-- Largest `i64` value, `2^63 - 1`. -/
def i64Max : ℤ := 2 ^ 63 - 1

/-- Clamp an integer into the representable `i64` interval. -/
def clampI64 (x : ℤ) : ℤ :=
  if x < i64Min then i64Min else if i64Max < x then i64Max else x

/-- Rust `i64::saturating_add`. -/
def satAdd (a b : ℤ) : ℤ := clampI64 (a + b)

/-- Rust `i64::saturating_sub`. -/
def satSub (a b : ℤ) : ℤ := clampI64 (a - b)

/-- Rust `i64::saturating_mul`. -/
def satMul (a b : ℤ) : ℤ := clampI64 (a * b)

/-- The milligas scale factor, `MILLIGAS_PRECISION` in `gas/mod.rs`. -/
def MILLIGAS_PRECISION : ℤ := 1000

namespace Gas

/-- Construction of a `Gas` value from whole gas units — `Gas::new` in
`gas/mod.rs`: `gas.saturating_mul(MILLIGAS_PRECISION)`.  The result is the
milligas payload of the constructed value. -/
def new (gas : ℤ) : ℤ := satMul gas MILLIGAS_PRECISION

/-- `impl Add for Gas`: `self.0.saturating_add(rhs.0)`. -/
def add (a b : ℤ) : ℤ := satAdd a b

/-- `impl Sub for Gas`: `self.0.saturating_sub(rhs.0)`. -/
def sub (a b : ℤ) : ℤ := satSub a b

/-- `impl Mul<i64> for Gas` (and, after lossless widening, `Mul<i32>`):
`self.0.saturating_mul(rhs)`. -/
def mul_i64 (a s : ℤ) : ℤ := satMul a s

/-- `impl Mul<u64> for Gas` (and `Mul<usize>` on 64-bit targets): the scalar
is converted by `rhs.try_into().unwrap_or(i64::MAX)` and then
saturating-multiplied. -/
def mul_u64 (a : ℤ) (r : ℕ) : ℤ :=
  satMul a (if (r : ℤ) ≤ i64Max then (r : ℤ) else i64Max)

end Gas

/-- `milligas_to_gas` in `gas/mod.rs`: truncating division by the precision,
with a saturating adjustment of one unit when rounding up a positive
non-exact value, or rounding down a negative non-exact value. -/
def milligas_to_gas (milligas : ℤ) (round_up : Bool) : ℤ :=
  if 0 < milligas ∧ round_up = true ∧ Int.tmod milligas MILLIGAS_PRECISION ≠ 0 then
    satAdd (Int.tdiv milligas MILLIGAS_PRECISION) 1
  else if milligas < 0 ∧ round_up = false ∧ Int.tmod milligas MILLIGAS_PRECISION ≠ 0 then
    satSub (Int.tdiv milligas MILLIGAS_PRECISION) 1
  else
    Int.tdiv milligas MILLIGAS_PRECISION

namespace Gas

/-- `Gas::round_up`. -/
def round_up (m : ℤ) : ℤ := milligas_to_gas m true

/-- `Gas::round_down`. -/
def round_down (m : ℤ) : ℤ := milligas_to_gas m false

end Gas

theorem clampI64_eq_of_mem {x : ℤ} (h1 : i64Min ≤ x) (h2 : x ≤ i64Max) :
    clampI64 x = x := by
  unfold clampI64; split_ifs <;> omega

theorem clampI64_mem (x : ℤ) : i64Min ≤ clampI64 x ∧ clampI64 x ≤ i64Max := by
  unfold clampI64 i64Min i64Max; split_ifs <;> omega

/-- Modelled from the spec: the gas charge record of `gas/charge.rs`, which is
not among the provided source files.  Per the spec's data model it carries a
text label, a compute cost and an auxiliary cost (the elapsed-duration field,
irrelevant to accounting, is omitted).  Costs are milligas integers. -/
structure GasCharge where
  name : String
  compute_cost : ℤ
  auxiliary_cost : ℤ
deriving Repr, DecidableEq

/-- Modelled from the spec: total cost of a charge record is
compute cost plus auxiliary cost, saturating. -/
def GasCharge.total (c : GasCharge) : ℤ := satAdd c.compute_cost c.auxiliary_cost

/-- `GasTracker` in `gas/mod.rs`: a gas limit, the gas used so far (interior
mutability via `Cell` is modelled by explicit state passing), and an optional
trace buffer (`Option<RefCell<Vec<GasCharge>>>`). -/
structure GasTracker where
  gas_limit : ℤ
  gas_used : ℤ
  trace : Option (List GasCharge)
deriving Repr, DecidableEq

namespace GasTracker

/-- `GasTracker::new(gas_limit, gas_used, enable_tracing)`:
`trace = enable_tracing.then_some(Default::default())`. -/
def new (gas_limit gas_used : ℤ) (enable_tracing : Bool) : GasTracker :=
  { gas_limit := gas_limit
    gas_used := gas_used
    trace := if enable_tracing then some [] else none }

/-- `GasTracker::charge_gas_inner`: saturating-add the amount to the usage;
if the result exceeds the limit, clamp usage to the limit and fail,
otherwise store the new usage and succeed.  Returns the success flag and the
updated tracker. -/
def charge_gas_inner (t : GasTracker) (to_use : ℤ) : Bool × GasTracker :=
  let g := satAdd t.gas_used to_use
  if t.gas_limit < g then (false, { t with gas_used := t.gas_limit })
  else (true, { t with gas_used := g })

/-- `GasTracker::charge_gas(name, to_use)`: runs `charge_gas_inner` and, when
tracing is enabled, pushes a record with the given name, the amount as
compute cost and zero auxiliary cost. -/
def charge_gas (t : GasTracker) (name : String) (to_use : ℤ) : Bool × GasTracker :=
  let r := t.charge_gas_inner to_use
  match t.trace with
  | some tr =>
      (r.1, { r.2 with trace := some (tr ++ [⟨name, to_use, 0⟩]) })
  | none => r

/-- `GasTracker::apply_charge(charge)`: charges the record's total and, when
tracing is enabled, pushes the record itself. -/
def apply_charge (t : GasTracker) (charge : GasCharge) : Bool × GasTracker :=
  let r := t.charge_gas_inner charge.total
  match t.trace with
  | some tr => (r.1, { r.2 with trace := some (tr ++ [charge]) })
  | none => r

/-- `GasTracker::gas_used` getter. -/
def used (t : GasTracker) : ℤ := t.gas_used

/-- `GasTracker::gas_available`: `gas_limit - gas_used` with `Gas`'s
saturating subtraction. -/
def gas_available (t : GasTracker) : ℤ := satSub t.gas_limit t.gas_used

/-- `GasTracker::new_child(new_limit)`:
`(self.gas_available() > new_limit).then(|| GasTracker::new(new_limit, 0, self.trace.is_some()))`. -/
def new_child (t : GasTracker) (new_limit : ℤ) : Option GasTracker :=
  if new_limit < t.gas_available then
    some (GasTracker.new new_limit 0 t.trace.isSome)
  else none

/-- `GasTracker::drain_trace`: returns the accumulated records (empty when
tracing is disabled) and the tracker with its trace buffer emptied
(`RefCell::take` replaces the vector with the default empty one). -/
def drain_trace (t : GasTracker) : List GasCharge × GasTracker :=
  (t.trace.getD [], { t with trace := t.trace.map fun _ => [] })

/-- `GasTracker::absorb(other)`: when tracing is enabled, extend the trace
with the other tracker's drained records; then `charge_gas_inner` for the
other tracker's usage.  Returns the success flag, the updated parent and the
(possibly drained) other tracker. -/
def absorb (t other : GasTracker) : Bool × GasTracker × GasTracker :=
  match t.trace with
  | some tr =>
      let d := other.drain_trace
      let t1 : GasTracker := { t with trace := some (tr ++ d.1) }
      let r := t1.charge_gas_inner d.2.gas_used
      (r.1, r.2, d.2)
  | none =>
      let r := t.charge_gas_inner other.gas_used
      (r.1, r.2, other)

end GasTracker

/-- Iterated application of `GasTracker.charge_gas_inner` to a sequence of
charge amounts against a tracker with the given limit and running usage; for
each attempt it records the success flag and the usage left behind. -/
def run_charges (limit : ℤ) : ℤ → List ℤ → List (Bool × ℤ)
  | _, [] => []
  | u, c :: cs =>
    let r := GasTracker.charge_gas_inner ⟨limit, u, none⟩ c
    (r.1, r.2.gas_used) :: run_charges limit r.2.gas_used cs

/-- Modelled from the spec (refinement side of claim C1): the spec's
description of a charge sequence outcome.  `cum` is the exact (unclamped)
cumulative usage so far; a charge succeeds exactly when the new cumulative
usage stays within the limit, leaving that usage; otherwise it fails leaving
usage exactly at the limit. -/
def spec_charge_outcomes (limit : ℤ) : ℤ → List ℤ → List (Bool × ℤ)
  | _, [] => []
  | cum, c :: cs =>
    let cum' := cum + c
    if cum' ≤ limit then (true, cum') :: spec_charge_outcomes limit cum' cs
    else (false, limit) :: spec_charge_outcomes limit cum' cs

/-- The `hash_blake2b` syscall of `syscalls/crypto.rs`, parametric in the
host capability's digest function (`Kernel::hash_blake2b` is outside the
provided sources).  Guest memory is a byte list; `try_slice` bounds checks
are the offset plus length staying within memory.  The Rust `assert_eq!` on
the digest length and any failed bounds check abort the call (`none`);
on success the digest is copied over exactly the 32 bytes at `obuf_off`. -/
def hash_blake2b {β : Type} (hashFn : List β → List β) (mem : List β)
    (data_off data_len obuf_off : ℕ) : Option (List β) :=
  if data_off + data_len ≤ mem.length then
    let h := hashFn ((mem.drop data_off).take data_len)
    if h.length = 32 then
      if obuf_off + 32 ≤ mem.length then
        some (mem.take obuf_off ++ h ++ mem.drop (obuf_off + 32))
      else none
    else none
  else none

/-- The dispatch logic of the `verify_consensus_fault` syscall of
`syscalls/crypto.rs`, parametric in the host capability's outcome
(`Kernel::verify_consensus_fault` is outside the provided sources; it yields
an error, a detected fault, or no fault).  A capability error becomes a
fatal trap (`Except.error`); a detected fault is pushed onto the return
channel (modelled from the spec as a stack) and the call returns `true`; no
fault returns `false` normally. -/
def verify_consensus_fault {ε φ : Type} (cap : Except ε (Option φ))
    (ret_stack : List φ) : Except ε (Bool × List φ) :=
  match cap with
  | .error e => .error e
  | .ok (some fault) => .ok (true, fault :: ret_stack)
  | .ok none => .ok (false, ret_stack)

/-- Decimal rendering of an `i64` (Rust's `Display` for integers): an
optional minus sign followed by the digits of the absolute value. -/
def int_display (i : ℤ) : String :=
  if i < 0 then "-" ++ Nat.repr i.natAbs else Nat.repr i.natAbs

/-- Left-pad a string with zeros up to the given width (no-op when already
at least that wide). -/
def zeroPadLeft (w : ℕ) (s : String) : String :=
  String.mk (List.replicate (w - s.length) '0') ++ s

/-- Rust's sign-aware zero-padding format `{:03}` applied to an `i64`: pad
to minimum total width 3 with zeros inserted after the sign. -/
def rust_pad3 (i : ℤ) : String :=
  if i < 0 then "-" ++ zeroPadLeft 2 (Nat.repr i.natAbs)
  else zeroPadLeft 3 (Nat.repr i.natAbs)

/-- `impl Display for Gas` in `gas/mod.rs`: zero renders as `"0"`; otherwise
`write!(f, "{integral}.{fractional:03}")` where `integral` and `fractional`
are the truncating quotient and remainder by the milligas precision. -/
def Gas.display (m : ℤ) : String :=
  if m = 0 then "0"
  else int_display (Int.tdiv m MILLIGAS_PRECISION) ++ "." ++
    rust_pad3 (Int.tmod m MILLIGAS_PRECISION)

theorem clampI64_eq_max {x : ℤ} (h : i64Max ≤ x) : clampI64 x = i64Max := by
  unfold clampI64 i64Min i64Max at *; split_ifs <;> omega

theorem tmod_neg_arg (a b : ℤ) : Int.tmod (-a) b = -Int.tmod a b := by
  simp [Int.tmod_def, Int.neg_tdiv, neg_mul, mul_neg]; ring

theorem tmod_prec_bounds (m : ℤ) :
    -MILLIGAS_PRECISION < Int.tmod m MILLIGAS_PRECISION ∧
      Int.tmod m MILLIGAS_PRECISION < MILLIGAS_PRECISION ∧
      (0 ≤ m → 0 ≤ Int.tmod m MILLIGAS_PRECISION) ∧
      (m ≤ 0 → Int.tmod m MILLIGAS_PRECISION ≤ 0) := by
  unfold MILLIGAS_PRECISION
  rcases le_or_lt 0 m with h | h
  · have h1 := Int.tmod_nonneg (a := m) 1000 h
    have h2 := Int.tmod_lt_of_pos m (b := 1000) (by norm_num)
    refine ⟨by omega, by omega, fun _ => h1, fun h0 => ?_⟩
    have hm0 : m = 0 := le_antisymm h0 h
    subst hm0
    simp [Int.zero_tmod]
  · have he : Int.tmod m 1000 = -Int.tmod (-m) 1000 := by
      rw [← tmod_neg_arg]; ring_nf
    have h1 := Int.tmod_nonneg (a := -m) 1000 (by omega)
    have h2 := Int.tmod_lt_of_pos (-m) (b := 1000) (by norm_num)
    refine ⟨by omega, by omega, fun h0 => by omega, fun _ => by omega⟩

/-- C7 (amended): for every gas tracker satisfying the normal-operation
invariant `0 ≤ used ≤ limit` of representable values — an invariant the
constructor `new` does NOT itself enforce — the accessor `gas_available`
equals `limit - used` exactly and is never negative. -/
theorem C7_gas_available_amended (t : GasTracker) (h0 : 0 ≤ t.gas_used)
    (h1 : t.gas_used ≤ t.gas_limit) (h2 : t.gas_limit ≤ i64Max) :
    t.gas_available = t.gas_limit - t.gas_used ∧ 0 ≤ t.gas_available := by
  unfold GasTracker.gas_available satSub clampI64 i64Min i64Max at *
  split_ifs <;> omega

/-- C7 witness: the amended claim evaluated on a freshly constructed tracker
with limit 20 units and usage 10 units. -/
theorem C7_witness :
    (GasTracker.new 20000 10000 false).gas_available =
      (GasTracker.new 20000 10000 false).gas_limit -
        (GasTracker.new 20000 10000 false).gas_used ∧
    0 ≤ (GasTracker.new 20000 10000 false).gas_available :=
  C7_gas_available_amended (GasTracker.new 20000 10000 false)
    (by decide) (by decide) (by decide)

/-- C7 counterexample: `GasTracker::new` accepts a usage above the limit
(nothing validates the arguments), and then `gas_available` is negative:
a tracker built with limit 5 units and usage 10 units has
`gas_available = -5000` milligas, refuting the claim that `gas_available`
is never negative for every freshly constructed tracker. -/
theorem C7_counterexample :
    (GasTracker.new 5000 10000 false).gas_available = -5000 ∧
    (GasTracker.new 5000 10000 false).gas_available < 0 := by decide

/-- C2 (amended): `new_child(new_limit)` returns no tracker if and only if
`new_limit ≥ available()` at call time — in particular it returns nothing
when `new_limit` equals `available()` exactly; when `new_limit < available()`
the returned child has zero usage, limit `new_limit`, and the parent's
tracing flag. -/
theorem C2_new_child_amended (t : GasTracker) (nl : ℤ) (c : GasTracker) :
    (t.new_child nl = none ↔ t.gas_available ≤ nl) ∧
    (t.new_child nl = some c →
      c.gas_used = 0 ∧ c.gas_limit = nl ∧ c.trace.isSome = t.trace.isSome) := by
  unfold GasTracker.new_child
  constructor
  · split_ifs with h
    · simp only [reduceCtorEq, false_iff]; omega
    · simp only [true_iff]; omega
  · intro hc
    split_ifs at hc with h
    · obtain rfl : GasTracker.new nl 0 t.trace.isSome = c := by
        simpa using hc
      refine ⟨rfl, rfl, ?_⟩
      unfold GasTracker.new
      cases ht : t.trace <;> simp [ht]

/-- C2 witness: on a tracing parent with limit 20000 and usage 5000 milligas
(15000 available), requesting a child limit of 1000 yields the child with
zero usage, limit 1000 and the parent's tracing flag; and the none-outcome
is equivalent to the available budget not exceeding 1000 (it is false here). -/
theorem C2_witness :
    ((GasTracker.new 20000 5000 true).new_child 1000 = none ↔
      (GasTracker.new 20000 5000 true).gas_available ≤ 1000) ∧
    ((GasTracker.new 1000 0 true).gas_used = 0 ∧
      (GasTracker.new 1000 0 true).gas_limit = 1000 ∧
      (GasTracker.new 1000 0 true).trace.isSome =
        (GasTracker.new 20000 5000 true).trace.isSome) :=
  ⟨(C2_new_child_amended (GasTracker.new 20000 5000 true) 1000
      (GasTracker.new 1000 0 true)).1,
    (C2_new_child_amended (GasTracker.new 20000 5000 true) 1000
      (GasTracker.new 1000 0 true)).2 (by decide)⟩

/-- C2 counterexample: a parent with limit 10000 milligas and zero usage has
exactly 10000 milligas available; the claim says a request for a child limit
equal to `available()` returns a child, but `new_child` returns `none`
(the code requires `available() > new_limit`, strictly). -/
theorem C2_counterexample :
    (GasTracker.new 10000 0 false).new_child 10000 = none ∧
    ¬ (GasTracker.new 10000 0 false).gas_available < 10000 := by decide

/-- C4 (amended): for every representable sub-unit value `v`,
`round_down(v) ≤ round_up(v) ≤ round_down(v) + 1`; `round_down` truncates
for nonnegative `v`, while for negative `v` with a non-zero fractional part
it returns the quotient truncated toward zero minus one — i.e. it rounds
toward negative infinity, so `round_down` of `-100` milligas is `-1` whole
units, not `0`. -/
theorem C4_rounding_amended (m : ℤ) (hmin : i64Min ≤ m) (hmax : m ≤ i64Max) :
    Gas.round_down m ≤ Gas.round_up m ∧
    Gas.round_up m ≤ Gas.round_down m + 1 ∧
    (0 ≤ m → Gas.round_down m = Int.tdiv m MILLIGAS_PRECISION) ∧
    (m < 0 → Int.tmod m MILLIGAS_PRECISION ≠ 0 →
      Gas.round_down m = Int.tdiv m MILLIGAS_PRECISION - 1) := by
  have hb := tmod_prec_bounds m
  have hk := Int.tdiv_add_tmod m 1000
  have hdown : Gas.round_down m =
      if m < 0 ∧ Int.tmod m MILLIGAS_PRECISION ≠ 0 then
        satSub (Int.tdiv m MILLIGAS_PRECISION) 1
      else Int.tdiv m MILLIGAS_PRECISION := by
    unfold Gas.round_down milligas_to_gas; simp
  have hup : Gas.round_up m =
      if 0 < m ∧ Int.tmod m MILLIGAS_PRECISION ≠ 0 then
        satAdd (Int.tdiv m MILLIGAS_PRECISION) 1
      else Int.tdiv m MILLIGAS_PRECISION := by
    unfold Gas.round_up milligas_to_gas; simp
  rw [hdown, hup]
  unfold MILLIGAS_PRECISION at hb ⊢
  unfold i64Min at hmin
  unfold i64Max at hmax
  unfold satAdd satSub clampI64 i64Min i64Max
  split_ifs <;> omega

/-- C4 witness: the amended claim applied at `v = -100` milligas, where
`round_down` yields `-1` and `round_up` yields `0`. -/
theorem C4_witness :
    Gas.round_down (-100) = Int.tdiv (-100) MILLIGAS_PRECISION - 1 ∧
    Gas.round_down (-100) = -1 ∧ Gas.round_up (-100) = 0 := by
  have h := C4_rounding_amended (-100) (by decide) (by decide)
  exact ⟨h.2.2.2 (by norm_num) (by decide), by decide, by decide⟩

/-- C4 counterexample: the claim says `round_down` of `-100` milligas is `0`
whole units (truncation toward zero); the code — consistently with its own
unit test `milligas_to_gas_round` — returns `-1`. -/
theorem C4_counterexample : Gas.round_down (-100) = -1 ∧ (-1 : ℤ) ≠ 0 := by
  decide

/-- C3 (amended): for representable gas values, `add`, `sub`, scalar multiply
by an `i64` (hence also `i32`) scalar, and `Gas::new` are total and never
wrap: each result is the exact mathematical value clamped into
`[i64::MIN, i64::MAX]` milligas, hence always representable.  For a `u64`
(or `usize`) scalar the code first converts the scalar with saturation at
`i64::MAX`; the clamping guarantee therefore holds whenever the gas value is
nonnegative or the scalar is at most `i64::MAX`, but not for a negative gas
value with a larger scalar. -/
theorem C3_gas_arith_amended (a b g s : ℤ) (r : ℕ)
    (ha : i64Min ≤ a) (ha' : a ≤ i64Max) (_hb : i64Min ≤ b) (_hb' : b ≤ i64Max)
    (_hr : (r : ℤ) < 2 ^ 64) :
    Gas.add a b = clampI64 (a + b) ∧
    Gas.sub a b = clampI64 (a - b) ∧
    Gas.mul_i64 a s = clampI64 (a * s) ∧
    Gas.new g = clampI64 (g * MILLIGAS_PRECISION) ∧
    (0 ≤ a ∨ (r : ℤ) ≤ i64Max → Gas.mul_u64 a r = clampI64 (a * r)) ∧
    (i64Min ≤ Gas.add a b ∧ Gas.add a b ≤ i64Max) ∧
    (i64Min ≤ Gas.mul_u64 a r ∧ Gas.mul_u64 a r ≤ i64Max) := by
  refine ⟨rfl, rfl, rfl, rfl, ?_, clampI64_mem _, clampI64_mem _⟩
  intro hcase
  unfold Gas.mul_u64 satMul
  by_cases hle : (r : ℤ) ≤ i64Max
  · rw [if_pos hle]
  · rw [if_neg hle]
    rcases hcase with hpos | hsmall
    · rcases eq_or_lt_of_le hpos with rfl | hpos1
      · simp
      · have h1 : 1 ≤ a := hpos1
        have hM : (0 : ℤ) ≤ i64Max := by unfold i64Max; norm_num
        have hra : i64Max < (r : ℤ) := lt_of_not_le hle
        have hAM : i64Max ≤ a * i64Max := le_mul_of_one_le_left hM h1
        have hAr : i64Max < a * r :=
          lt_of_lt_of_le hra (le_mul_of_one_le_left (by positivity) h1)
        rw [clampI64_eq_max hAM, clampI64_eq_max (le_of_lt hAr)]
    · exact absurd hsmall hle

/-- C3 witness: the amended claim applied at a nonnegative gas value of 5
milligas and the scalar `u64::MAX`, for which the result equals the clamped
exact product. -/
theorem C3_witness :
    Gas.mul_u64 5 (2 ^ 64 - 1) = clampI64 (5 * ((2 ^ 64 - 1 : ℕ) : ℤ)) :=
  (C3_gas_arith_amended 5 3 7 2 (2 ^ 64 - 1) (by decide) (by decide)
    (by decide) (by decide) (by norm_num)).2.2.2.2.1 (Or.inl (by norm_num))

/-- C3 counterexample: a gas value of `-1` milligas multiplied by the `u64`
scalar `2^64 - 1` overflows below `i64::MIN`, so the claim requires the
result to clamp to the extreme `i64::MIN = -2^63`; the code instead first
clamps the scalar to `i64::MAX` and returns `-(2^63 - 1) = i64::MIN + 1`. -/
theorem C3_counterexample :
    Gas.mul_u64 (-1) (2 ^ 64 - 1) = -(2 ^ 63 - 1) ∧
    clampI64 ((-1) * ((2 ^ 64 - 1 : ℕ) : ℤ)) = -(2 ^ 63) ∧
    Gas.mul_u64 (-1) (2 ^ 64 - 1) ≠ clampI64 ((-1) * ((2 ^ 64 - 1 : ℕ) : ℤ)) := by
  refine ⟨by decide, by decide, by decide⟩

theorem charge_gas_inner_eq (limit u c : ℤ) :
    GasTracker.charge_gas_inner ⟨limit, u, none⟩ c =
      if limit < satAdd u c then (false, ⟨limit, limit, none⟩)
      else (true, ⟨limit, satAdd u c, none⟩) := rfl

theorem satAdd_pos_gt {limit c : ℤ} (hc : 0 < c) (hL : limit < i64Max) :
    limit < satAdd limit c := by
  unfold satAdd clampI64 i64Min i64Max at *
  split_ifs <;> omega

theorem run_charges_sticky (limit : ℤ) (cs : List ℤ) (hL : limit < i64Max)
    (hcs : ∀ c ∈ cs, 0 < c) :
    run_charges limit limit cs = List.replicate cs.length (false, limit) := by
  induction cs with
  | nil => rfl
  | cons c cs ih =>
    have hgt := satAdd_pos_gt (hcs c (by simp)) hL
    simp only [run_charges, charge_gas_inner_eq, if_pos hgt, List.length_cons,
      List.replicate_succ]
    rw [ih fun c hc => hcs c (by simp [hc])]

theorem spec_charge_outcomes_past (limit : ℤ) (cs : List ℤ) :
    ∀ cum, limit < cum → (∀ c ∈ cs, 0 < c) →
      spec_charge_outcomes limit cum cs = List.replicate cs.length (false, limit) := by
  induction cs with
  | nil => intro cum _ _; rfl
  | cons c cs ih =>
    intro cum hcum hcs
    have hc : 0 < c := hcs c (by simp)
    simp only [spec_charge_outcomes, if_neg (by omega : ¬ cum + c ≤ limit),
      List.length_cons, List.replicate_succ]
    rw [ih (cum + c) (by omega) fun x hx => hcs x (by simp [hx])]

/-- C1 (amended): for every tracker of representable limit `L` strictly below
saturation and representable initial usage `U0 ≤ L`, and every sequence of
strictly positive charge amounts funneled through `charge_gas_inner` (the
common path of `charge_gas` and `apply_charge`): each charge whose exact
cumulative usage `U0 + P` stays within `L` succeeds and leaves usage exactly
`U0 + P`; the first charge pushing the cumulative usage strictly past `L`
fails and leaves usage exactly `L`; and every later (positive) charge also
fails and re-clamps usage to exactly `L` — precisely the outcome sequence
`spec_charge_outcomes` described by the spec. -/
theorem C1_charge_sequence_amended (limit : ℤ) (cs : List ℤ) :
    ∀ u0, i64Min ≤ u0 → u0 ≤ limit → limit < i64Max → (∀ c ∈ cs, 0 < c) →
      run_charges limit u0 cs = spec_charge_outcomes limit u0 cs := by
  induction cs with
  | nil => intro u0 _ _ _ _; rfl
  | cons c cs ih =>
    intro u0 hmin hu hL hcs
    have hc : 0 < c := hcs c (by simp)
    have htail : ∀ x ∈ cs, 0 < x := fun x hx => hcs x (by simp [hx])
    by_cases hle : u0 + c ≤ limit
    · have hadd : satAdd u0 c = u0 + c := by
        unfold satAdd clampI64 i64Min i64Max at *
        split_ifs <;> omega
      simp only [run_charges, spec_charge_outcomes, charge_gas_inner_eq, hadd,
        if_neg (by omega : ¬ limit < u0 + c), if_pos hle]
      rw [ih (u0 + c) (by omega) hle hL htail]
    · have hgt : limit < satAdd u0 c := by
        unfold satAdd clampI64 i64Min i64Max at *
        split_ifs <;> omega
      simp only [run_charges, spec_charge_outcomes, charge_gas_inner_eq,
        if_pos hgt, if_neg hle]
      rw [run_charges_sticky limit cs hL htail,
        spec_charge_outcomes_past limit cs (u0 + c) (by omega) htail]

/-- C1 witness: the spec's concrete scenario, scaled to milligas — limit 20
units, initial usage 10 units, charges of 5, 5, and 1 units: the first two
succeed reaching usage 15 and 20 units, the third fails leaving usage
exactly at the limit. -/
theorem C1_witness :
    run_charges 20000 10000 [5000, 5000, 1000] =
      spec_charge_outcomes 20000 10000 [5000, 5000, 1000] :=
  C1_charge_sequence_amended 20000 [5000, 5000, 1000] 10000
    (by decide) (by decide) (by decide) (by decide)

/-- C1 counterexample: with limit 20000 and initial usage 10000 milligas, a
charge of 11000 fails and clamps usage to the limit; the claim says every
subsequent non-zero charge also fails and re-clamps to the limit, but the
subsequent non-zero charge `-1` SUCCEEDS and moves usage to 19999. -/
theorem C1_counterexample :
    run_charges 20000 10000 [11000, -1] = [(false, 20000), (true, 19999)] ∧
    (-1 : ℤ) ≠ 0 := by
  refine ⟨by decide, by decide⟩

theorem satAdd_exact {u T limit : ℤ} (hmin : i64Min ≤ u) (hT : 0 ≤ T)
    (hsum : u + T ≤ limit) (hL : limit ≤ i64Max) : satAdd u T = u + T := by
  unfold satAdd clampI64 i64Min i64Max at *
  split_ifs <;> omega

/-- C5: when a child tracker with total usage `T` and recorded trace entries
is absorbed into a parent whose usage and limit are representable and whose
remaining budget is at least `T`, the absorption succeeds, the parent's
usage increases by exactly `T`, and — when the parent's tracing is enabled —
the parent's trace afterwards is its pre-existing entries followed by the
child's entries in their original order. -/
theorem C5_absorb_success (p c : GasTracker)
    (hmin : i64Min ≤ p.gas_used) (hT : 0 ≤ c.gas_used)
    (hbudget : p.gas_used + c.gas_used ≤ p.gas_limit)
    (hL : p.gas_limit ≤ i64Max) :
    (p.absorb c).1 = true ∧
    (p.absorb c).2.1.gas_used = p.gas_used + c.gas_used ∧
    (∀ pre cs, p.trace = some pre → c.trace = some cs →
      (p.absorb c).2.1.trace = some (pre ++ cs)) := by
  obtain ⟨L, U, tr⟩ := p
  obtain ⟨Lc, Uc, trc⟩ := c
  simp only at hmin hT hbudget hL
  have hadd := satAdd_exact hmin hT hbudget hL
  rcases tr with _ | tr
  · simp only [GasTracker.absorb, GasTracker.charge_gas_inner, hadd,
      if_neg (by omega : ¬ L < U + Uc)]
    exact ⟨trivial, trivial, fun pre cs hpre => by cases hpre⟩
  · simp only [GasTracker.absorb, GasTracker.drain_trace,
      GasTracker.charge_gas_inner, hadd, if_neg (by omega : ¬ L < U + Uc)]
    refine ⟨trivial, trivial, fun pre cs hpre hcs => ?_⟩
    cases hpre
    cases hcs
    rfl

/-- C5 witness: a tracing parent with limit 20000 and usage 5000 milligas
absorbing a child with usage 7000 and one trace record ends with the
parent's pre-existing record followed by the child's record. -/
theorem C5_witness :
    ((⟨20000, 5000, some [⟨"a", 1, 0⟩]⟩ : GasTracker).absorb
        ⟨10000, 7000, some [⟨"b", 2, 0⟩]⟩).1 = true ∧
    ((⟨20000, 5000, some [⟨"a", 1, 0⟩]⟩ : GasTracker).absorb
        ⟨10000, 7000, some [⟨"b", 2, 0⟩]⟩).2.1.gas_used = 5000 + 7000 ∧
    ((⟨20000, 5000, some [⟨"a", 1, 0⟩]⟩ : GasTracker).absorb
        ⟨10000, 7000, some [⟨"b", 2, 0⟩]⟩).2.1.trace =
      some ([⟨"a", 1, 0⟩] ++ [⟨"b", 2, 0⟩]) := by
  have h := C5_absorb_success ⟨20000, 5000, some [⟨"a", 1, 0⟩]⟩
    ⟨10000, 7000, some [⟨"b", 2, 0⟩]⟩ (by decide) (by decide) (by decide)
    (by decide)
  exact ⟨h.1, h.2.1, h.2.2 _ _ rfl rfl⟩

/-- C10: when the child's total usage exceeds the parent's remaining budget,
`absorb` fails with out-of-gas, yet the parent is mutated on the error path:
its usage is clamped to exactly its limit, and — when the parent's tracing
is enabled — its trace has already been extended with the child's drained
entries before the failure (absorb is not atomic on error). -/
theorem C10_absorb_error_mutates (p c : GasTracker)
    (hmin : i64Min ≤ p.gas_used) (hT : 0 ≤ c.gas_used)
    (hover : p.gas_limit < p.gas_used + c.gas_used)
    (hL : p.gas_limit < i64Max) :
    (p.absorb c).1 = false ∧
    (p.absorb c).2.1.gas_used = p.gas_limit ∧
    (∀ pre cs, p.trace = some pre → c.trace = some cs →
      (p.absorb c).2.1.trace = some (pre ++ cs)) := by
  obtain ⟨L, U, tr⟩ := p
  obtain ⟨Lc, Uc, trc⟩ := c
  simp only at hmin hT hover hL
  have hgt : L < satAdd U Uc := by
    unfold satAdd clampI64 i64Min i64Max at *
    split_ifs <;> omega
  rcases tr with _ | tr
  · simp only [GasTracker.absorb, GasTracker.charge_gas_inner, if_pos hgt]
    exact ⟨trivial, trivial, fun pre cs hpre => by cases hpre⟩
  · simp only [GasTracker.absorb, GasTracker.drain_trace,
      GasTracker.charge_gas_inner, if_pos hgt]
    refine ⟨trivial, trivial, fun pre cs hpre hcs => ?_⟩
    cases hpre
    cases hcs
    rfl

/-- C10 witness: a tracing parent with limit 20000 and usage 15000 milligas
absorbing a child with usage 8000 fails, its usage is clamped to 20000, and
its trace nevertheless gained the child's record. -/
theorem C10_witness :
    ((⟨20000, 15000, some [⟨"a", 1, 0⟩]⟩ : GasTracker).absorb
        ⟨10000, 8000, some [⟨"b", 2, 0⟩]⟩).1 = false ∧
    ((⟨20000, 15000, some [⟨"a", 1, 0⟩]⟩ : GasTracker).absorb
        ⟨10000, 8000, some [⟨"b", 2, 0⟩]⟩).2.1.gas_used = 20000 ∧
    ((⟨20000, 15000, some [⟨"a", 1, 0⟩]⟩ : GasTracker).absorb
        ⟨10000, 8000, some [⟨"b", 2, 0⟩]⟩).2.1.trace =
      some ([⟨"a", 1, 0⟩] ++ [⟨"b", 2, 0⟩]) := by
  have h := C10_absorb_error_mutates ⟨20000, 15000, some [⟨"a", 1, 0⟩]⟩
    ⟨10000, 8000, some [⟨"b", 2, 0⟩]⟩ (by decide) (by decide) (by decide)
    (by decide)
  exact ⟨h.1, h.2.1, h.2.2 _ _ rfl rfl⟩

/-- C6: the consensus-fault verification syscall has a tri-state outcome —
a capability error becomes a fatal trap; a detected fault pushes its payload
onto the return channel and reports `true`; no fault is the normal `false`
outcome; and the trap outcome is distinct from the `false` outcome. -/
theorem C6_verify_consensus_fault_tri_state {ε φ : Type} (e : ε) (f : φ)
    (s : List φ) :
    verify_consensus_fault (Except.error e) s = Except.error e ∧
    verify_consensus_fault (Except.ok (some f) : Except ε (Option φ)) s =
      Except.ok (true, f :: s) ∧
    verify_consensus_fault (Except.ok none : Except ε (Option φ)) s =
      Except.ok (false, s) ∧
    verify_consensus_fault (Except.error e) s ≠
      verify_consensus_fault (Except.ok none : Except ε (Option φ)) s := by
  refine ⟨rfl, rfl, rfl, ?_⟩
  simp [verify_consensus_fault]

theorem list_take_append_left {β : Type} (l1 l2 : List β) (n : ℕ)
    (h : l1.length = n) : (l1 ++ l2).take n = l1 := by
  subst h
  simp

theorem list_drop_append_left {β : Type} (l1 l2 : List β) (n : ℕ)
    (h : l1.length = n) : (l1 ++ l2).drop n = l2 := by
  subst h
  simp

/-- C9: on success the hashing syscall writes exactly 32 bytes of the
host-computed digest into guest memory at `obuf_off` — the 32 bytes at the
output offset become the digest while the prefix before `obuf_off`, the
suffix after `obuf_off + 32` and the total memory length are unchanged; and
when the capability returns a digest whose length is not 32 the call aborts
instead of truncating or zero-padding. -/
theorem C9_hash_blake2b_write {β : Type} (hashFn : List β → List β)
    (mem : List β) (data_off data_len obuf_off : ℕ) (dig : List β)
    (hdig : dig = hashFn ((mem.drop data_off).take data_len))
    (hd : data_off + data_len ≤ mem.length) :
    (dig.length = 32 → obuf_off + 32 ≤ mem.length →
      hash_blake2b hashFn mem data_off data_len obuf_off =
        some (mem.take obuf_off ++ dig ++ mem.drop (obuf_off + 32)) ∧
      (mem.take obuf_off ++ dig ++ mem.drop (obuf_off + 32)).length =
        mem.length ∧
      ((mem.take obuf_off ++ dig ++ mem.drop (obuf_off + 32)).drop
          obuf_off).take 32 = dig ∧
      (mem.take obuf_off ++ dig ++ mem.drop (obuf_off + 32)).take obuf_off =
        mem.take obuf_off) ∧
    (dig.length ≠ 32 → hash_blake2b hashFn mem data_off data_len obuf_off =
      none) := by
  subst hdig
  constructor
  · intro hlen ho
    have hto : (mem.take obuf_off).length = obuf_off := by
      simp
      omega
    constructor
    · unfold hash_blake2b
      rw [if_pos hd, if_pos hlen, if_pos ho]
    refine ⟨?_, ?_, ?_⟩
    · simp
      omega
    · rw [List.append_assoc, list_drop_append_left _ _ _ hto,
        list_take_append_left _ _ _ hlen]
    · rw [List.append_assoc, list_take_append_left _ _ _ hto]
  · intro hlen
    unfold hash_blake2b
    rw [if_pos hd, if_neg hlen]

/-- C9 witness: with 40 bytes of guest memory, a data region of 3 bytes at
offset 0, an output offset of 4, and a capability returning a 32-byte
digest, the syscall writes that digest over bytes 4 to 35. -/
theorem C9_witness :
    hash_blake2b (fun _ => List.replicate 32 (9 : ℕ)) (List.replicate 40 0)
        0 3 4 =
      some ((List.replicate 40 (0 : ℕ)).take 4 ++ List.replicate 32 9 ++
        (List.replicate 40 0).drop 36) :=
  ((C9_hash_blake2b_write (fun _ => List.replicate 32 (9 : ℕ))
      (List.replicate 40 0) 0 3 4 (List.replicate 32 9) rfl
      (by decide)).1 (by decide) (by decide)).1

set_option maxRecDepth 8000 in
theorem rust_pad3_digits : ∀ r : ℕ, r < 1000 →
    (rust_pad3 (r : ℤ)).length = 3 ∧
      (rust_pad3 (r : ℤ)).data.all Char.isDigit = true := by decide

/-- C8 (amended): the zero value renders as exactly `"0"`, and every
positive representable value renders as the decimal integral part, a dot,
and a fractional rendering of exactly three decimal digits.  For negative
values the fractional part is rendered with its own minus sign (e.g.
`-100` milligas renders as `"0.-100"`), so the three-digit form holds for
positive values only. -/
theorem C8_display_amended (m : ℤ) (hmin : i64Min ≤ m) (hmax : m ≤ i64Max) :
    (m = 0 → Gas.display m = "0") ∧
    (0 < m →
      Gas.display m =
        int_display (Int.tdiv m MILLIGAS_PRECISION) ++ "." ++
          rust_pad3 (Int.tmod m MILLIGAS_PRECISION) ∧
      (rust_pad3 (Int.tmod m MILLIGAS_PRECISION)).length = 3 ∧
      (rust_pad3 (Int.tmod m MILLIGAS_PRECISION)).data.all Char.isDigit =
        true) := by
  constructor
  · intro h0
    subst h0
    rfl
  · intro hm
    have hb := tmod_prec_bounds m
    unfold MILLIGAS_PRECISION at hb ⊢
    have hr0 : 0 ≤ Int.tmod m 1000 := hb.2.2.1 (le_of_lt hm)
    have hr1 : Int.tmod m 1000 < 1000 := hb.2.1
    have hcast : ((Int.tmod m 1000).toNat : ℤ) = Int.tmod m 1000 :=
      Int.toNat_of_nonneg hr0
    have hpad := rust_pad3_digits (Int.tmod m 1000).toNat (by omega)
    rw [hcast] at hpad
    refine ⟨?_, hpad.1, hpad.2⟩
    unfold Gas.display MILLIGAS_PRECISION
    rw [if_neg (by omega : ¬ m = 0)]

/-- C8 witness: the amended claim applied at `1234567` milligas, rendering
as the integral part `1234`, a dot, and the three digits `567`. -/
theorem C8_witness :
    Gas.display 1234567 =
      int_display (Int.tdiv 1234567 MILLIGAS_PRECISION) ++ "." ++
        rust_pad3 (Int.tmod 1234567 MILLIGAS_PRECISION) ∧
    (rust_pad3 (Int.tmod 1234567 MILLIGAS_PRECISION)).length = 3 ∧
    (rust_pad3 (Int.tmod 1234567 MILLIGAS_PRECISION)).data.all Char.isDigit =
      true :=
  (C8_display_amended 1234567 (by decide) (by decide)).2 (by norm_num)

/-- C8 counterexample: the value `-100` milligas renders as `"0.-100"` —
the part after the dot is the four-character, non-digit-only string
`"-100"` — refuting the claim that every non-zero value (negative values
included) renders with exactly three fractional digits. -/
theorem C8_counterexample :
    Gas.display (-100) = "0.-100" ∧
    (rust_pad3 (Int.tmod (-100) MILLIGAS_PRECISION)).length = 4 ∧
    (rust_pad3 (Int.tmod (-100) MILLIGAS_PRECISION)).data.all Char.isDigit =
      false := by
  refine ⟨by decide, by decide, by decide⟩
